import Mathlib

/-!
Shallow embedding of `main.py` of the GPX_GeoCoding repository, and proofs
about its three pure-logic stages (Point Extractor, Interval Sampler,
Geocode Deduplicator) plus the save step and the entry point.

Modelling conventions:
- Timestamps are `Option Int` (seconds on an absolute axis): `gpxpy` point
  times are optional (`None` when a point has no `<time>` element).
- Python `(t2 - t1).seconds` on a `timedelta` is the seconds-within-day
  component: for integral-second datetimes it equals `(t2 - t1) % 86400`
  with Python `%` semantics, i.e. `Int.emod` (also for negative
  differences: `timedelta(seconds = -10).seconds = 86390`).
- Fallible code (a Python statement that can raise) is embedded in
  `Except String`; the `try/except ... raise` wrappers in the source only
  log and re-raise, so they do not change the value semantics.
- Coordinates are never computed with by the program, only handed to the
  geocoding client; they are embedded as opaque integer values.
- The geocoding client is an external collaborator; it is embedded as a
  pure capability `Int × Int → List Candidate` mapping a (latitude,
  longitude) pair to the ordered candidate list of the response.
-/

/-- A track point as produced by the parser: `point.latitude`,
`point.longitude`, `point.time` (where `time` may be absent). -/
structure Point where
  latitude : Int
  longitude : Int
  time : Option Int
deriving DecidableEq, Repr

/-- A track segment: `segment.points`. -/
structure Segment where
  points : List Point
deriving DecidableEq, Repr

/-- A track: `track.segments`. -/
structure Track where
  segments : List Segment
deriving DecidableEq, Repr

/-- The parsed GPX document: `gpx_data.tracks`. -/
structure Gpx where
  tracks : List Track
deriving DecidableEq, Repr

/-! ## Point Extractor (`extract_points`, main.py lines 38-59) -/

/-- The `total_points` list built by the nested loops of `extract_points`:
all points of all segments of all tracks, in structure-traversal order. -/
def total_points (g : Gpx) : List Point :=
  g.tracks.flatMap fun t => t.segments.flatMap fun s => s.points

/-- The comparison `sorted` uses, from `key=lambda x: x.time`. The default
for an absent time is never reached on the non-error path: when the list
has at least two elements and some `time` is `none`, `extract_points`
errors instead of sorting (see below), and a singleton list is returned
without any comparison. -/
def timeLe (a b : Point) : Bool :=
  a.time.getD 0 ≤ b.time.getD 0

/-- `extract_points`: flatten the track structure, then
`sorted(total_points, key=lambda x: x.time)`.

CPython's `sorted` computes all keys first (an attribute read that cannot
fail here) and then sorts; with fewer than two elements it performs no key
comparison at all and returns the list unchanged, while with at least two
elements every key takes part in at least one `<` comparison, so a `None`
key raises `TypeError` (`None` does not support `<` against anything,
itself included). `sorted` is a stable sort, embedded as `List.mergeSort`. -/
def extract_points (g : Gpx) : Except String (List Point) :=
  let total := total_points g
  if 2 ≤ total.length ∧ total.any fun p => p.time = none then
    Except.error "TypeError: sort comparison with None time"
  else
    Except.ok (total.mergeSort timeLe)

/-! ## Interval Sampler (`select_points`, main.py lines 61-96) -/

/-- `(t2 - t1).seconds` for two optional datetimes: raises `TypeError`
when either operand is `None`, otherwise the seconds-within-day component
`(t2 - t1) % 86400` (Python `%` = `Int.emod`). -/
def tdSecondsOpt : Option Int → Option Int → Except String Int
  | some t2, some t1 => Except.ok ((t2 - t1).emod 86400)
  | _, _ => Except.error "TypeError: unsupported operand for datetime subtraction"

/-- The `for i in range(1, len(points))` loop of `select_points`: `prev`
is `points[i-1]`, `acc` is `time_sec_passed`; returns the points appended
to `processing_points` by the loop. -/
def selectLoop (im : Int) (prev : Point) (rest : List Point) (acc : Int) :
    Except String (List Point) :=
  match rest with
  | [] => Except.ok []
  | p :: rest' =>
    match tdSecondsOpt p.time prev.time with
    | Except.error e => Except.error e
    | Except.ok d =>
      let acc' := acc + d
      if im * 60 ≤ acc' then
        match selectLoop im p rest' 0 with
        | Except.ok l => Except.ok (p :: l)
        | Except.error e => Except.error e
      else
        selectLoop im p rest' acc'

/-- The value of `processing_points` right after the scan loop of
`select_points` (initialised to `[points[0]]`, grown by `selectLoop`). -/
def scanPart (points : List Point) (im : Int) : Except String (List Point) :=
  match points with
  | [] => Except.ok []
  | p0 :: rest =>
    match selectLoop im p0 rest 0 with
    | Except.ok l => Except.ok (p0 :: l)
    | Except.error e => Except.error e

/-- `select_points(points, interval_minutes)`: empty input returns `[]`
(with a logged warning); otherwise the scan loop runs, and then the final
check `if len(processing_points) > 0 and
(points[-1].time - processing_points[-1].time).seconds >= interval_minutes * 60`
appends `points[-1]`. -/
def select_points (points : List Point) (im : Int) : Except String (List Point) :=
  match points with
  | [] => Except.ok []
  | p0 :: rest =>
    match scanPart (p0 :: rest) im with
    | Except.error e => Except.error e
    | Except.ok pp =>
      match (p0 :: rest).getLast?, pp.getLast? with
      | some plast, some r =>
        match tdSecondsOpt plast.time r.time with
        | Except.error e => Except.error e
        | Except.ok d =>
          if im * 60 ≤ d then Except.ok (pp ++ [plast]) else Except.ok pp
      | _, _ => Except.ok pp

/-! ## Geocode Deduplicator (`reverseGeocode`, main.py lines 98-152) -/

/-- One entry of `address_components` in a geocoding response. -/
structure Component where
  types : List String
  long_name : String
deriving DecidableEq, Repr

/-- One candidate of a geocoding response (`geocode_result[i]`); only its
`address_components` are read. -/
structure Candidate where
  address_components : List Component
deriving DecidableEq, Repr

/-- The five-field address dictionary `newParsedAddr`; the field order is
the dict-literal insertion order of main.py lines 115-121 (also the
`address_tuple` order of lines 135-141; the tuple and the dict carry the
same five strings, so both are embedded as this one structure). -/
structure Addr where
  country : String
  administrative_area_level_1 : String
  administrative_area_level_2 : String
  locality : String
  sublocality : String
deriving DecidableEq, Repr

/-- The `for component in geocode_result[0]['address_components']` loop:
an if/elif chain over `component['types']` filling `newParsedAddr`,
starting from all-empty strings; a later matching component overwrites an
earlier one for the same field. -/
def parseComponents (cs : List Component) : Addr :=
  cs.foldl
    (fun addr c =>
      if "country" ∈ c.types then
        { addr with country := c.long_name }
      else if "administrative_area_level_1" ∈ c.types then
        { addr with administrative_area_level_1 := c.long_name }
      else if "administrative_area_level_2" ∈ c.types then
        { addr with administrative_area_level_2 := c.long_name }
      else if "locality" ∈ c.types then
        { addr with locality := c.long_name }
      else if "sublocality" ∈ c.types then
        { addr with sublocality := c.long_name }
      else addr)
    ⟨"", "", "", "", ""⟩

/-- The `for point in points` loop of `reverseGeocode`: `parsed` is
`parsed_points`, `seen` is `seen_addresses` (a Python `set`, embedded as
a list used only through membership, so element order is irrelevant).
An empty candidate list only logs a warning; otherwise the first
candidate's components are parsed, and the address is appended exactly
when its tuple is unseen (`seen_addresses.add` sits inside that branch). -/
def rgLoop (gmaps : Int × Int → List Candidate) (points : List Point)
    (parsed : List Addr) (seen : List Addr) : List Addr :=
  match points with
  | [] => parsed
  | p :: rest =>
    match gmaps (p.latitude, p.longitude) with
    | [] => rgLoop gmaps rest parsed seen
    | c :: _ =>
      let addr := parseComponents c.address_components
      if addr ∈ seen then rgLoop gmaps rest parsed seen
      else rgLoop gmaps rest (parsed ++ [addr]) (addr :: seen)

/-- `reverseGeocode(gmaps, points)`: returns the PAIR
`(parsed_points, len(parsed_points) == 0)` (main.py line 149). -/
def reverseGeocode (gmaps : Int × Int → List Candidate) (points : List Point) :
    List Addr × Bool :=
  let parsed := rgLoop gmaps points [] []
  (parsed, parsed.length == 0)

/-! ## JSON output and the save step (main.py lines 155-164) -/

/-- The fragment of the JSON value model that `json.dumps` can produce
here: a Python `str`, `bool`, `tuple`/`list` (both serialize as a JSON
array) or `dict` (keys in insertion order). -/
inductive Json where
  | str : String → Json
  | bool : Bool → Json
  | arr : List Json → Json
  | obj : List (String × Json) → Json
deriving Repr

/-- `json.dumps` view of `newParsedAddr`: an object with the five
recognized keys in dict insertion order. -/
def jsonOfAddr (a : Addr) : Json :=
  Json.obj
    [("country", Json.str a.country),
     ("administrative_area_level_1", Json.str a.administrative_area_level_1),
     ("administrative_area_level_2", Json.str a.administrative_area_level_2),
     ("locality", Json.str a.locality),
     ("sublocality", Json.str a.sublocality)]

/-- `json.dumps` view of the value `main` actually hands to
`save_reversed_geocode_results_json`: the whole `reverseGeocode` return
pair, a two-element JSON array `[records, emptiness-flag]`. -/
def jsonOfSavedValue (r : List Addr × Bool) : Json :=
  Json.arr [Json.arr (r.1.map jsonOfAddr), Json.bool r.2]

/-- Modelled from the spec: the output document §6 describes — "a JSON
document containing the Result Set as an array of objects with the five
recognized keys". Used only to compare against `jsonOfSavedValue`. -/
def jsonOfResultSet (records : List Addr) : Json :=
  Json.arr (records.map jsonOfAddr)

/-- `save_reversed_geocode_results_json`: the file write is external, so
its outcome is a parameter; the `except` clause (main.py lines 162-163)
only logs — it neither re-raises nor returns an error, so the function
always returns normally. The serialized value is kept as a field of the
result so the dataflow from `main` stays visible. -/
def save_reversed_geocode_results_json (parsed_points : List Addr × Bool)
    (writeOutcome : Except String Unit) : Except String Json :=
  match writeOutcome with
  | Except.ok _ => Except.ok (jsonOfSavedValue parsed_points)
  | Except.error _ => Except.ok (jsonOfSavedValue parsed_points)

/-! ## Entry point (`main`, main.py lines 166-183) -/

/-- Outcome of a run of `main`: `completedSuccessfully` means the final
log line "Reversed geocoding completed successfully." was reached;
`mainFailed` means the broad `except` of `main` caught an error. -/
inductive RunOutcome where
  | completedSuccessfully : RunOutcome
  | mainFailed : String → RunOutcome
deriving DecidableEq, Repr

/-- `main()`: load (external, outcome a parameter), extract, select with
the literal `point_interval_minutes = 5`, reverse-geocode, save (file
write outcome a parameter). Any stage error is caught by the broad
`except` and the run is reported failed; `main` itself never raises. -/
def mainRun (loadOutcome : Except String Gpx)
    (gmaps : Int × Int → List Candidate)
    (writeOutcome : Except String Unit) : RunOutcome :=
  match loadOutcome with
  | Except.error e => RunOutcome.mainFailed e
  | Except.ok gpx_data =>
    match extract_points gpx_data with
    | Except.error e => RunOutcome.mainFailed e
    | Except.ok total =>
      match select_points total 5 with
      | Except.error e => RunOutcome.mainFailed e
      | Except.ok processing_points =>
        let results := reverseGeocode gmaps processing_points
        match save_reversed_geocode_results_json results writeOutcome with
        | Except.error e => RunOutcome.mainFailed e
        | Except.ok _ => RunOutcome.completedSuccessfully

/-! ## Spec-side companion definitions -/

/-- Modelled from the spec (§4.3): first-occurrence deduplication with a
running `seen` set — "Append to the Result Set only if unseen; always
record it as seen. Preserve first-occurrence order." -/
def dedupGo (seen : List Addr) : List Addr → List Addr
  | [] => []
  | a :: l => if a ∈ seen then dedupGo seen l else a :: dedupGo (a :: seen) l

/-- Modelled from the spec (§4.3): deduplication starting from an empty
`seen` set. -/
def firstDedup (l : List Addr) : List Addr :=
  dedupGo [] l

/-- The per-point address extraction of the geocode stage, without the
dedup: for each point, the parse of the first candidate when the lookup
returns any candidates, and nothing when it returns none. -/
def extractedAddrs (gmaps : Int × Int → List Candidate) (points : List Point) :
    List Addr :=
  points.filterMap fun p =>
    match gmaps (p.latitude, p.longitude) with
    | [] => none
    | c :: _ => some (parseComponents c.address_components)

/-! ## Pure mirrors of the sampler, for the error-free path -/

/-- Pure value of `tdSecondsOpt` on present timestamps. -/
def tdSecondsP (t2 t1 : Option Int) : Int :=
  (t2.getD 0 - t1.getD 0).emod 86400

/-- Pure mirror of `selectLoop` (agrees with it when no timestamp is
absent; see `selectLoop_eq_ok`). -/
def selectLoopP (im : Int) (prev : Point) (rest : List Point) (acc : Int) :
    List Point :=
  match rest with
  | [] => []
  | p :: rest' =>
    let acc' := acc + tdSecondsP p.time prev.time
    if im * 60 ≤ acc' then p :: selectLoopP im p rest' 0
    else selectLoopP im p rest' acc'

/-- Pure mirror of `scanPart`. -/
def scanPartP (points : List Point) (im : Int) : List Point :=
  match points with
  | [] => []
  | p0 :: rest => p0 :: selectLoopP im p0 rest 0

lemma tdSecondsOpt_some (a b : Int) :
    tdSecondsOpt (some a) (some b) = Except.ok ((a - b).emod 86400) := rfl

lemma tdSecondsOpt_eq_ok {t2 t1 : Option Int} (h2 : t2 ≠ none) (h1 : t1 ≠ none) :
    tdSecondsOpt t2 t1 = Except.ok (tdSecondsP t2 t1) := by
  cases t2 with
  | none => exact absurd rfl h2
  | some a =>
    cases t1 with
    | none => exact absurd rfl h1
    | some b => simp [tdSecondsOpt, tdSecondsP]

lemma selectLoop_eq_ok (im : Int) :
    ∀ (rest : List Point) (prev : Point) (acc : Int),
      prev.time ≠ none → (∀ p ∈ rest, p.time ≠ none) →
      selectLoop im prev rest acc = Except.ok (selectLoopP im prev rest acc) := by
  intro rest
  induction rest with
  | nil => intro prev acc _ _; rfl
  | cons p rest' ih =>
    intro prev acc hprev hrest
    have hp : p.time ≠ none := hrest p (List.mem_cons_self p rest')
    have hrest' : ∀ q ∈ rest', q.time ≠ none :=
      fun q hq => hrest q (List.mem_cons_of_mem p hq)
    rw [selectLoop, selectLoopP, tdSecondsOpt_eq_ok hp hprev]
    by_cases hif : im * 60 ≤ acc + tdSecondsP p.time prev.time
    · simp only [hif, if_pos, ih p 0 hp hrest']
    · simp only [hif, if_neg, ih p _ hp hrest', ite_false]

lemma scanPart_eq_ok {points : List Point} (im : Int)
    (h : ∀ p ∈ points, p.time ≠ none) :
    scanPart points im = Except.ok (scanPartP points im) := by
  cases points with
  | nil => rfl
  | cons p0 rest =>
    rw [scanPart, scanPartP,
      selectLoop_eq_ok im rest p0 0 (h p0 (List.mem_cons_self p0 rest))
        (fun q hq => h q (List.mem_cons_of_mem p0 hq))]

lemma mem_selectLoopP (im : Int) :
    ∀ (rest : List Point) (prev : Point) (acc : Int),
      ∀ q ∈ selectLoopP im prev rest acc, q ∈ rest := by
  intro rest
  induction rest with
  | nil => intro prev acc q hq; exact absurd hq (List.not_mem_nil q)
  | cons p rest' ih =>
    intro prev acc q hq
    rw [selectLoopP] at hq
    by_cases hif : im * 60 ≤ acc + tdSecondsP p.time prev.time
    · rw [if_pos hif] at hq
      rcases List.mem_cons.mp hq with h | h
      · exact h ▸ List.mem_cons_self p rest'
      · exact List.mem_cons_of_mem p (ih p 0 q h)
    · rw [if_neg hif] at hq
      exact List.mem_cons_of_mem p (ih p _ q hq)

lemma mem_scanPartP {points : List Point} {im : Int} :
    ∀ q ∈ scanPartP points im, q ∈ points := by
  cases points with
  | nil => intro q hq; exact absurd hq (List.not_mem_nil q)
  | cons p0 rest =>
    intro q hq
    rw [scanPartP] at hq
    rcases List.mem_cons.mp hq with h | h
    · exact h ▸ List.mem_cons_self p0 rest
    · exact List.mem_cons_of_mem p0 (mem_selectLoopP im rest p0 0 q h)

lemma select_points_cases {points : List Point} {im : Int}
    (h : ∀ p ∈ points, p.time ≠ none) (hne : points ≠ []) :
    ∃ plast, points.getLast? = some plast ∧
      (select_points points im = Except.ok (scanPartP points im) ∨
       select_points points im = Except.ok (scanPartP points im ++ [plast])) := by
  cases points with
  | nil => exact absurd rfl hne
  | cons p0 rest =>
    obtain ⟨plast, hpl⟩ :=
      Option.isSome_iff_exists.mp (List.getLast?_isSome.mpr (List.cons_ne_nil p0 rest))
    refine ⟨plast, hpl, ?_⟩
    have hplt : plast.time ≠ none := h plast (List.mem_of_mem_getLast? hpl)
    obtain ⟨r, hr⟩ :
        ∃ r, (scanPartP (p0 :: rest) im).getLast? = some r := by
      refine Option.isSome_iff_exists.mp (List.getLast?_isSome.mpr ?_)
      rw [scanPartP]; exact List.cons_ne_nil _ _
    have hrt : r.time ≠ none := h r (mem_scanPartP r (List.mem_of_mem_getLast? hr))
    rw [select_points, scanPart_eq_ok im h]
    simp only [hpl, hr, tdSecondsOpt_eq_ok hplt hrt]
    by_cases hif : im * 60 ≤ tdSecondsP plast.time r.time
    · rw [if_pos hif]; right; rfl
    · rw [if_neg hif]; left; rfl

lemma emod_86400_le {d : Int} (hd : 0 ≤ d) : d.emod 86400 ≤ d := by
  have h1 : 0 ≤ d / 86400 := Int.ediv_nonneg hd (by norm_num)
  have h2 : 0 ≤ 86400 * (d / 86400) := by positivity
  have h3 : d.emod 86400 = d - 86400 * (d / 86400) := Int.emod_def d 86400
  linarith

lemma emod_86400_nonneg (d : Int) : 0 ≤ d.emod 86400 :=
  Int.emod_nonneg d (by norm_num)

/-- Scan invariant: provided the input is sorted non-decreasing by time
and the accumulated seconds do not exceed the true elapsed time from the
last retained point `base` to the cursor `prev`, every point the loop
retains is at least `im * 60` true seconds after the previous retained
point. -/
lemma chain_selectLoopP (im : Int) :
    ∀ (rest : List Point) (prev base : Point) (acc : Int),
      List.Chain' (fun a b => a.time.getD 0 ≤ b.time.getD 0) (prev :: rest) →
      acc ≤ prev.time.getD 0 - base.time.getD 0 →
      List.Chain' (fun a b => im * 60 ≤ b.time.getD 0 - a.time.getD 0)
        (base :: selectLoopP im prev rest acc) := by
  intro rest
  induction rest with
  | nil => intro prev base acc _ _; exact List.chain'_singleton base
  | cons p rest' ih =>
    intro prev base acc hsort hacc
    have hpp : prev.time.getD 0 ≤ p.time.getD 0 := (List.chain'_cons.mp hsort).1
    have hsort' : List.Chain' (fun a b => a.time.getD 0 ≤ b.time.getD 0) (p :: rest') :=
      (List.chain'_cons.mp hsort).2
    have hd : tdSecondsP p.time prev.time ≤ p.time.getD 0 - prev.time.getD 0 :=
      emod_86400_le (by linarith)
    rw [selectLoopP]
    by_cases hif : im * 60 ≤ acc + tdSecondsP p.time prev.time
    · rw [if_pos hif, List.chain'_cons]
      constructor
      · linarith
      · exact ih p p 0 hsort' (by linarith)
    · rw [if_neg hif]
      exact ih p base _ hsort' (by linarith)

lemma rgLoop_eq (gmaps : Int × Int → List Candidate) :
    ∀ (pts : List Point) (parsed seen : List Addr),
      rgLoop gmaps pts parsed seen =
        parsed ++ dedupGo seen (extractedAddrs gmaps pts) := by
  intro pts
  induction pts with
  | nil => intro parsed seen; simp [rgLoop, extractedAddrs, dedupGo]
  | cons p rest ih =>
    intro parsed seen
    rw [rgLoop]
    cases hg : gmaps (p.latitude, p.longitude) with
    | nil =>
      rw [ih parsed seen]
      unfold extractedAddrs
      rw [List.filterMap_cons]
      simp only [hg]
    | cons c cs =>
      have hx : extractedAddrs gmaps (p :: rest) =
          parseComponents c.address_components :: extractedAddrs gmaps rest := by
        unfold extractedAddrs
        rw [List.filterMap_cons]
        simp only [hg]
      rw [hx, dedupGo]
      by_cases hmem : parseComponents c.address_components ∈ seen
      · simp only [if_pos hmem, ih parsed seen]
      · simp only [if_neg hmem,
          ih (parsed ++ [parseComponents c.address_components])
            (parseComponents c.address_components :: seen),
          List.append_assoc, List.singleton_append]

lemma dedupGo_nodup :
    ∀ (l seen : List Addr),
      (dedupGo seen l).Nodup ∧ ∀ a ∈ dedupGo seen l, a ∉ seen := by
  intro l
  induction l with
  | nil => intro seen; simp [dedupGo]
  | cons a l' ih =>
    intro seen
    rw [dedupGo]
    by_cases hmem : a ∈ seen
    · rw [if_pos hmem]; exact ih seen
    · rw [if_neg hmem]
      have h1 := (ih (a :: seen)).1
      have h2 := (ih (a :: seen)).2
      constructor
      · rw [List.nodup_cons]
        exact ⟨fun hc => (h2 a hc) (List.mem_cons_self a seen), h1⟩
      · intro b hb
        rcases List.mem_cons.mp hb with h | h
        · exact h ▸ hmem
        · exact fun hc => (h2 b h) (List.mem_cons_of_mem a hc)

/-! ## Claims -/

/-- C3: for the concrete input of three points at t=0s, t=100s, t=400s
with interval 5 minutes, the Interval Sampler returns exactly the two
points at t=0 and t=400, with no duplicate final append. -/
theorem C3_concrete_scenario :
    select_points [⟨0, 0, some 0⟩, ⟨0, 0, some 100⟩, ⟨0, 0, some 400⟩] 5 =
      Except.ok [⟨0, 0, some 0⟩, ⟨0, 0, some 400⟩] := by
  rfl

/-- C5: for every non-empty input sequence (of timestamped points, per
the spec's data model), the Interval Sampler's output is non-empty and
starts with the first input point, for every interval; the empty input
yields the empty sequence. -/
theorem C5_first_point_always_kept (points : List Point) (im : Int)
    (h : ∀ p ∈ points, p.time ≠ none) :
    (points = [] → select_points points im = Except.ok []) ∧
    (∀ p0 rest, points = p0 :: rest →
      ∃ l, select_points points im = Except.ok (p0 :: l)) := by
  constructor
  · intro he; subst he; rfl
  · intro p0 rest he
    subst he
    obtain ⟨plast, _, hc | hc⟩ := select_points_cases h (List.cons_ne_nil p0 rest)
    · exact ⟨selectLoopP im p0 rest 0, by rw [hc]; rfl⟩
    · refine ⟨selectLoopP im p0 rest 0 ++ [plast], ?_⟩
      rw [hc, scanPartP, List.cons_append]

/-- C5 witness: the theorem applied at the one-point input t=0 with
interval 5. -/
theorem C5_first_point_always_kept_witness :
    (([⟨0, 0, some 0⟩] : List Point) = [] →
      select_points [⟨0, 0, some 0⟩] 5 = Except.ok []) ∧
    (∀ p0 rest, ([⟨0, 0, some 0⟩] : List Point) = p0 :: rest →
      ∃ l, select_points [⟨0, 0, some 0⟩] 5 = Except.ok (p0 :: l)) :=
  C5_first_point_always_kept [⟨0, 0, some 0⟩] 5 (by decide)

/-- C2 counterexample: the stated duplicate-append is NOT reachable with
a positive interval — there is no input and positive interval for which
the post-scan step appends the true last point on top of a scan result
that already ends with that same point. -/
theorem C2_counterexample_positive_interval_never_duplicates :
    ¬ ∃ (pts : List Point) (im : Int) (scan : List Point) (x : Point),
        0 < im ∧ scanPart pts im = Except.ok scan ∧
        scan.getLast? = some x ∧ pts.getLast? = some x ∧
        select_points pts im = Except.ok (scan ++ [x]) := by
  rintro ⟨pts, im, scan, x, him, hscan, hsl, hpl, hsel⟩
  cases pts with
  | nil =>
    rw [scanPart] at hscan
    cases hscan
    exact absurd hsl (by simp)
  | cons p0 rest =>
    simp only [select_points, hscan, hpl, hsl] at hsel
    cases ht : x.time with
    | none => rw [ht] at hsel; simp [tdSecondsOpt] at hsel
    | some a =>
      simp only [ht, tdSecondsOpt_some] at hsel
      have hnot : ¬ im * 60 ≤ (a - a).emod 86400 := by
        rw [sub_self]
        have hz : Int.emod 0 86400 = 0 := by decide
        rw [hz]
        exact not_le.mpr (mul_pos him (by norm_num))
      rw [if_neg hnot] at hsel
      have hlen := congrArg List.length (Except.ok.inj hsel)
      simp at hlen

/-- C2 amended: the duplicate final append is reachable only for a
non-positive interval: with interval 0, the input [t=0s, t=300s] makes
the main scan retain the last point and the post-scan step append it
again, so the last input point occurs twice in the output. -/
theorem C2_amended_duplicate_append_needs_nonpositive_interval :
    select_points [⟨0, 0, some 0⟩, ⟨0, 0, some 300⟩] 0 =
      Except.ok [⟨0, 0, some 0⟩, ⟨0, 0, some 300⟩, ⟨0, 0, some 300⟩] := by
  rfl

/-- C4: for every input sorted non-decreasing by timestamp and every
interval, any two consecutive points retained by the scan — the whole
output except possibly the forced final point — are at least
interval × 60 true seconds apart. -/
theorem C4_retained_points_interval_apart (points : List Point) (im : Int)
    (scan : List Point)
    (hsorted : List.Chain' (fun a b : Point => a.time.getD 0 ≤ b.time.getD 0) points)
    (hsome : ∀ p ∈ points, p.time ≠ none)
    (hscan : scanPart points im = Except.ok scan) :
    List.Chain' (fun a b : Point => im * 60 ≤ b.time.getD 0 - a.time.getD 0) scan ∧
    (select_points points im = Except.ok scan ∨
      ∃ plast, points.getLast? = some plast ∧
        select_points points im = Except.ok (scan ++ [plast])) := by
  have hsp := scanPart_eq_ok im hsome
  rw [hscan] at hsp
  have hseq : scan = scanPartP points im := Except.ok.inj hsp
  subst hseq
  constructor
  · cases points with
    | nil => exact List.chain'_nil
    | cons p0 rest =>
      rw [scanPartP]
      exact chain_selectLoopP im rest p0 p0 0 hsorted (by simp)
  · cases points with
    | nil => left; rfl
    | cons p0 rest =>
      obtain ⟨plast, hpl, hc | hc⟩ := select_points_cases hsome (List.cons_ne_nil p0 rest)
      · left; exact hc
      · right; exact ⟨plast, hpl, hc⟩

/-- C4 witness: the theorem applied at the sorted input t=0,100,400 with
interval 5; the scan retains t=0 and t=400. -/
theorem C4_retained_points_interval_apart_witness :
    List.Chain' (fun a b : Point => 5 * 60 ≤ b.time.getD 0 - a.time.getD 0)
      [⟨0, 0, some 0⟩, ⟨0, 0, some 400⟩] ∧
    (select_points [⟨0, 0, some 0⟩, ⟨0, 0, some 100⟩, ⟨0, 0, some 400⟩] 5 =
        Except.ok [⟨0, 0, some 0⟩, ⟨0, 0, some 400⟩] ∨
      ∃ plast,
        ([⟨0, 0, some 0⟩, ⟨0, 0, some 100⟩, ⟨0, 0, some 400⟩] : List Point).getLast? =
            some plast ∧
          select_points [⟨0, 0, some 0⟩, ⟨0, 0, some 100⟩, ⟨0, 0, some 400⟩] 5 =
            Except.ok ([⟨0, 0, some 0⟩, ⟨0, 0, some 400⟩] ++ [plast])) :=
  C4_retained_points_interval_apart
    [⟨0, 0, some 0⟩, ⟨0, 0, some 100⟩, ⟨0, 0, some 400⟩] 5
    [⟨0, 0, some 0⟩, ⟨0, 0, some 400⟩]
    (List.chain'_cons.mpr ⟨by decide,
      List.chain'_cons.mpr ⟨by decide, List.chain'_singleton _⟩⟩)
    (by decide) (by rfl)

/-- C10: the sampler computes each gap as the seconds field of the time
difference, discarding whole days: for a two-point input whose true gap
is at least interval × 60 seconds but whose gap modulo 86400 seconds is
below the threshold (e.g. a gap of exactly 24 hours contributes 0), the
second point is dropped — neither the scan nor the final check keeps it. -/
theorem C10_gap_counted_modulo_86400 (p q : Point) (im a b : Int)
    (hp : p.time = some a) (hq : q.time = some b)
    (hbig : im * 60 ≤ b - a)
    (hmod : (b - a).emod 86400 < im * 60) :
    select_points [p, q] im = Except.ok [p] := by
  have hnot : ¬ im * 60 ≤ (b - a).emod 86400 := not_le.mpr hmod
  simp only [select_points, scanPart, selectLoop, hp, hq, tdSecondsOpt_some,
    zero_add, if_neg hnot]
  simp [List.getLast?, tdSecondsOpt_some, hp, hq, if_neg hnot]

/-- C10 witness: the theorem applied at two points exactly 24 hours
apart with interval 5 minutes: the 86400-second gap contributes 0
seconds, so the second point is dropped. -/
theorem C10_gap_counted_modulo_86400_witness :
    select_points [⟨0, 0, some 0⟩, ⟨0, 0, some 86400⟩] 5 = Except.ok [⟨0, 0, some 0⟩] :=
  C10_gap_counted_modulo_86400 ⟨0, 0, some 0⟩ ⟨0, 0, some 86400⟩ 5 0 86400
    rfl rfl (by norm_num) (by decide)

/-- C7: for every geocoding capability and point sequence, the Result Set
built by `reverseGeocode` has no two structurally-equal elements and is
exactly the first-occurrence deduplication of the per-point extracted
address tuples (appended only when unseen, always recorded as seen). -/
theorem C7_result_set_nodup_first_occurrence
    (gmaps : Int × Int → List Candidate) (points : List Point) :
    (reverseGeocode gmaps points).1.Nodup ∧
    (reverseGeocode gmaps points).1 = firstDedup (extractedAddrs gmaps points) := by
  have h := rgLoop_eq gmaps points [] []
  rw [List.nil_append] at h
  constructor
  · rw [reverseGeocode, h]
    exact (dedupGo_nodup (extractedAddrs gmaps points) []).1
  · rw [reverseGeocode, h, firstDedup]

/-- C8: a failed output write is swallowed: the save step returns
normally with the serialized value, and the outcome `main` reports is
the same as if the write had succeeded (the success log line is still
reached whenever the earlier stages succeeded). -/
theorem C8_write_error_swallowed (res : List Addr × Bool)
    (w : Except String Unit) (loadOutcome : Except String Gpx)
    (gmaps : Int × Int → List Candidate) :
    save_reversed_geocode_results_json res w = Except.ok (jsonOfSavedValue res) ∧
    mainRun loadOutcome gmaps w = mainRun loadOutcome gmaps (Except.ok ()) := by
  constructor
  · cases w <;> rfl
  · cases loadOutcome with
    | error e => rfl
    | ok g =>
      rw [mainRun, mainRun]
      cases hE : extract_points g with
      | error e => rfl
      | ok total =>
        dsimp only
        cases hS : select_points total 5 with
        | error e => rfl
        | ok pp =>
          dsimp only
          cases w <;> rfl

/-- C1: the value `main` hands to the save step, and hence the JSON
document written, is NOT the Result Set array alone: it is the whole
`reverseGeocode` return pair `(records, emptiness-flag)`, which
serializes as a two-element array `[records, bool]`. Evaluated at a run
whose geocode stage yields one record with country "Japan". -/
theorem C1_saved_document_is_pair_not_result_set :
    reverseGeocode (fun _ => [⟨[⟨["country"], "Japan"⟩]⟩]) [⟨0, 0, some 0⟩] =
      ([⟨"Japan", "", "", "", ""⟩], false) ∧
    jsonOfSavedValue
        (reverseGeocode (fun _ => [⟨[⟨["country"], "Japan"⟩]⟩]) [⟨0, 0, some 0⟩]) ≠
      jsonOfResultSet
        (reverseGeocode (fun _ => [⟨[⟨["country"], "Japan"⟩]⟩]) [⟨0, 0, some 0⟩]).1 := by
  have h1 : reverseGeocode (fun _ => [⟨[⟨["country"], "Japan"⟩]⟩]) [⟨0, 0, some 0⟩] =
      ([⟨"Japan", "", "", "", ""⟩], false) := by decide
  refine ⟨h1, ?_⟩
  rw [h1]
  simp [jsonOfSavedValue, jsonOfResultSet, jsonOfAddr]

lemma timeLe_trans : ∀ a b c : Point,
    timeLe a b = true → timeLe b c = true → timeLe a c = true := by
  intro a b c
  simp only [timeLe, decide_eq_true_eq]
  exact le_trans

lemma timeLe_total : ∀ a b : Point, (timeLe a b || timeLe b a) = true := by
  intro a b
  simp only [timeLe, Bool.or_eq_true, decide_eq_true_eq]
  exact le_total _ _

/-- C6: for every track structure on which the Point Extractor returns a
sequence, that sequence is sorted non-decreasing by timestamp, its length
is the sum of per-segment point counts, and it is a stable sort of the
structure-traversal concatenation (a permutation of it that preserves
the relative order of points with equal timestamps); and — stated
unconditionally, for every empty-track structure — an empty track yields
the empty sequence, not an error. -/
theorem C6_extractor_sorted_stable (g : Gpx) (out : List Point)
    (h : extract_points g = Except.ok out) :
    List.Pairwise (fun a b : Point => timeLe a b = true) out ∧
    out.length =
      (g.tracks.map fun t => (t.segments.map fun s => s.points.length).sum).sum ∧
    out.Perm (total_points g) ∧
    (∀ tkey : Option Int,
      out.filter (fun p => p.time == tkey) =
        (total_points g).filter (fun p => p.time == tkey)) ∧
    (g.tracks = [] → out = []) ∧
    (∀ g2 : Gpx, g2.tracks = [] → extract_points g2 = Except.ok []) := by
  simp only [extract_points] at h
  by_cases hc : 2 ≤ (total_points g).length ∧
      ((total_points g).any fun p => p.time = none) = true
  · rw [if_pos hc] at h
    exact absurd h (by simp)
  · rw [if_neg hc] at h
    have hout : out = (total_points g).mergeSort timeLe := (Except.ok.inj h).symm
    subst hout
    refine ⟨List.sorted_mergeSort timeLe_trans timeLe_total _, ?_, ?_, ?_, ?_, ?_⟩
    · rw [List.length_mergeSort]
      simp [total_points, List.length_flatMap, Function.comp_def]
    · exact List.mergeSort_perm _ _
    · intro tkey
      set q : Point → Bool := fun p => p.time == tkey with hq
      have hsub : ((total_points g).filter q).Sublist
          ((total_points g).mergeSort timeLe) := by
        refine List.sublist_mergeSort timeLe_trans timeLe_total ?_
          (List.filter_sublist _)
        refine List.pairwise_iff_forall_sublist.mpr ?_
        intro a b hab
        have ha : a ∈ (total_points g).filter q := hab.subset (by simp)
        have hb : b ∈ (total_points g).filter q := hab.subset (by simp)
        have ha' : a.time = tkey := by
          have := (List.mem_filter.mp ha).2
          rwa [hq, beq_iff_eq] at this
        have hb' : b.time = tkey := by
          have := (List.mem_filter.mp hb).2
          rwa [hq, beq_iff_eq] at this
        simp [timeLe, ha', hb']
      have hperm : (((total_points g).mergeSort timeLe).filter q).Perm
          ((total_points g).filter q) :=
        (List.mergeSort_perm (total_points g) timeLe).filter q
      have hsub2 : ((total_points g).filter q).Sublist
          (((total_points g).mergeSort timeLe).filter q) := by
        have h2s := hsub.filter q
        simp only [List.filter_filter, Bool.and_self] at h2s
        exact h2s
      exact (hsub2.eq_of_length hperm.length_eq.symm).symm
    · intro htr
      have hnil : total_points g = [] := by simp [total_points, htr]
      rw [hnil]
      simp
    · intro g2 htr
      have hnil : total_points g2 = [] := by simp [total_points, htr]
      simp [extract_points, hnil]

/-- C6 witness: the theorem applied at a one-track, two-segment
structure whose points arrive out of order (t=10 then t=5). -/
theorem C6_extractor_sorted_stable_witness :
    List.Pairwise (fun a b : Point => timeLe a b = true)
      [⟨0, 0, some 5⟩, ⟨0, 0, some 10⟩] ∧
    ([⟨0, 0, some 5⟩, ⟨0, 0, some 10⟩] : List Point).length =
      ((⟨[⟨[⟨[⟨0, 0, some 10⟩]⟩, ⟨[⟨0, 0, some 5⟩]⟩]⟩]⟩ : Gpx).tracks.map
        fun t => (t.segments.map fun s => s.points.length).sum).sum ∧
    ([⟨0, 0, some 5⟩, ⟨0, 0, some 10⟩] : List Point).Perm
      (total_points ⟨[⟨[⟨[⟨0, 0, some 10⟩]⟩, ⟨[⟨0, 0, some 5⟩]⟩]⟩]⟩) ∧
    (∀ tkey : Option Int,
      ([⟨0, 0, some 5⟩, ⟨0, 0, some 10⟩] : List Point).filter
          (fun p => p.time == tkey) =
        (total_points ⟨[⟨[⟨[⟨0, 0, some 10⟩]⟩, ⟨[⟨0, 0, some 5⟩]⟩]⟩]⟩).filter
          (fun p => p.time == tkey)) ∧
    ((⟨[⟨[⟨[⟨0, 0, some 10⟩]⟩, ⟨[⟨0, 0, some 5⟩]⟩]⟩]⟩ : Gpx).tracks = [] →
      ([⟨0, 0, some 5⟩, ⟨0, 0, some 10⟩] : List Point) = []) ∧
    (∀ g2 : Gpx, g2.tracks = [] → extract_points g2 = Except.ok []) :=
  C6_extractor_sorted_stable ⟨[⟨[⟨[⟨0, 0, some 10⟩]⟩, ⟨[⟨0, 0, some 5⟩]⟩]⟩]⟩
    [⟨0, 0, some 5⟩, ⟨0, 0, some 10⟩]
    (by simp [extract_points, total_points, List.mergeSort, List.merge, timeLe])

/-- C9 counterexample: a track whose single point lacks a timestamp is
returned as a one-point sequence — the Point Extractor does NOT raise,
because sorting one element performs no key comparison. -/
theorem C9_counterexample_single_point_without_time :
    extract_points ⟨[⟨[⟨[⟨1, 2, none⟩]⟩]⟩]⟩ = Except.ok [⟨1, 2, none⟩] := by
  simp [extract_points, total_points]

/-- C9 amended: the Point Extractor surfaces a processing error when
some point lacks a timestamp AND the flattened sequence has at least two
points; a single-point track with a missing timestamp is returned
without error. -/
theorem C9_amended_error_needs_two_points (g : Gpx)
    (h2 : 2 ≤ (total_points g).length)
    (hnone : ∃ p ∈ total_points g, p.time = none) :
    extract_points g = Except.error "TypeError: sort comparison with None time" := by
  simp only [extract_points]
  split
  · rfl
  · rename_i hcond
    exfalso
    apply hcond
    refine ⟨h2, ?_⟩
    rw [List.any_eq_true]
    obtain ⟨p, hp, ht⟩ := hnone
    exact ⟨p, hp, by simp [ht]⟩

/-- C9 amended witness: the theorem applied at a track with two
points, the second of which lacks a timestamp. -/
theorem C9_amended_error_needs_two_points_witness :
    extract_points ⟨[⟨[⟨[⟨1, 2, some 0⟩, ⟨3, 4, none⟩]⟩]⟩]⟩ =
      Except.error "TypeError: sort comparison with None time" :=
  C9_amended_error_needs_two_points ⟨[⟨[⟨[⟨1, 2, some 0⟩, ⟨3, 4, none⟩]⟩]⟩]⟩
    (by decide) ⟨⟨3, 4, none⟩, by decide, rfl⟩
